import Mathlib

/-!
Verification of the image-optimizer middleware (Hono + sharp).

Shallow embedding of `src/middleware.ts` (explicit-configuration variant) and
of the auto-detect variant's request normalization and aspect-ratio selection
(file `unnamed/part_000`).  Strings are modelled with Lean `String`
(JavaScript string operations are re-implemented below on character lists so
that everything evaluates by kernel reduction).  Node `path.join`/`path.resolve`
are modelled for absolute base directories, which is what the middleware uses
(its defaults are derived from `process.cwd()`).  JavaScript numbers appearing
here are integers (query parameters in their documented ranges), modelled as
`Int`; the aspect-ratio arithmetic of the transform step is modelled exactly
over `ℚ`.
-/

namespace ImageOptimizer

/-- Model of JavaScript `String.prototype.startsWith`: the first list is the
pattern, the second the string searched. -/
def listStartsWith : List Char → List Char → Bool
  | [], _ => true
  | _ :: _, [] => false
  | p :: ps, c :: cs => p == c && listStartsWith ps cs

/-- JavaScript `s.startsWith(pre)`. -/
def strStartsWith (s pre : String) : Bool :=
  listStartsWith pre.data s.data

/-- JavaScript `s.split('?')[0]`: the characters before the first `?`. -/
def takeBeforeQ : List Char → List Char
  | [] => []
  | c :: cs => if c = '?' then [] else c :: takeBeforeQ cs

/-- Model of `rawSrc.split('?')[0]` from the auto-detect variant. -/
def stripQuery (s : String) : String :=
  ⟨takeBeforeQ s.data⟩

/-- `isUrl` from middleware.ts:19-21. -/
def isUrl (source : String) : Bool :=
  strStartsWith source "http://" || strStartsWith source "https://"

/-! ## Node path model (POSIX, absolute base directories) -/

/-- Split a character list into `/`-separated segments (accumulator holds the
current segment reversed). -/
def splitSegsAux : List Char → List Char → List (List Char)
  | [], acc => [acc.reverse]
  | c :: rest, acc =>
    if c = '/' then acc.reverse :: splitSegsAux rest []
    else splitSegsAux rest (c :: acc)

/-- Normalization of path segments as done by `path.resolve` on an absolute
path: empty and `.` segments are dropped, `..` pops the previous segment
(and is dropped at the root). -/
def normSegs (segs : List (List Char)) : List (List Char) :=
  segs.foldl
    (fun acc seg =>
      if seg = [] ∨ seg = ['.'] then acc
      else if seg = ['.', '.'] then acc.dropLast
      else acc ++ [seg])
    []

/-- Re-join segments with `/`. -/
def joinSegs : List (List Char) → List Char
  | [] => []
  | [s] => s
  | s :: rest => s ++ '/' :: joinSegs rest

/-- Model of Node `path.resolve` applied to an absolute POSIX path (also the
result of `path.resolve(abs, rel)` applied to `abs ++ "/" ++ rel`, and of
`path.join` on those arguments followed by `path.resolve`). -/
def resolveAbsPath (s : String) : String :=
  ⟨'/' :: joinSegs (normSegs (splitSegsAux s.data []))⟩

/-- The `normalizedPath` computed at middleware.ts:37: strip one leading
slash. -/
def normalizeRel (relativePath : String) : String :=
  if strStartsWith relativePath "/" then ⟨relativePath.data.drop 1⟩ else relativePath

/-- `resolveLocalImagePath` from middleware.ts:32-59.  `projectRoot` and
`assetsDir` are assumed absolute (the middleware's defaults are built from
`process.cwd()`).  `none` models the `null` rejection. -/
def resolveLocalImagePath (relativePath projectRoot assetsDir : String) : Option String :=
  let normalizedPath := normalizeRel relativePath
  if strStartsWith normalizedPath "assets/" then
    let resolvedPath := resolveAbsPath (projectRoot ++ "/" ++ normalizedPath)
    let projectAssetsDir := resolveAbsPath (projectRoot ++ "/assets")
    if strStartsWith resolvedPath projectAssetsDir then some resolvedPath else none
  else
    let resolvedPath := resolveAbsPath (assetsDir ++ "/" ++ normalizedPath)
    if strStartsWith resolvedPath (resolveAbsPath assetsDir) then some resolvedPath else none

/-- `root` is a strict path-prefix of `p` in the directory sense: `p` names
something strictly inside the directory `root` (that is, `root ++ "/"` is a
string prefix of `p`). -/
def dirContains (root p : String) : Bool :=
  listStartsWith (root.data ++ ['/']) p.data

/-! ## MD5 (RFC 1321), executable on byte lists -/

/-- Per-round left-rotation amounts. -/
def md5S : List Nat :=
  [7, 12, 17, 22, 7, 12, 17, 22, 7, 12, 17, 22, 7, 12, 17, 22,
   5, 9, 14, 20, 5, 9, 14, 20, 5, 9, 14, 20, 5, 9, 14, 20,
   4, 11, 16, 23, 4, 11, 16, 23, 4, 11, 16, 23, 4, 11, 16, 23,
   6, 10, 15, 21, 6, 10, 15, 21, 6, 10, 15, 21, 6, 10, 15, 21]

/-- Round constants `floor(abs(sin(i+1)) * 2^32)`. -/
def md5K : List Nat :=
  [0xd76aa478, 0xe8c7b756, 0x242070db, 0xc1bdceee,
   0xf57c0faf, 0x4787c62a, 0xa8304613, 0xfd469501,
   0x698098d8, 0x8b44f7af, 0xffff5bb1, 0x895cd7be,
   0x6b901122, 0xfd987193, 0xa679438e, 0x49b40821,
   0xf61e2562, 0xc040b340, 0x265e5a51, 0xe9b6c7aa,
   0xd62f105d, 0x02441453, 0xd8a1e681, 0xe7d3fbc8,
   0x21e1cde6, 0xc33707d6, 0xf4d50d87, 0x455a14ed,
   0xa9e3e905, 0xfcefa3f8, 0x676f02d9, 0x8d2a4c8a,
   0xfffa3942, 0x8771f681, 0x6d9d6122, 0xfde5380c,
   0xa4beea44, 0x4bdecfa9, 0xf6bb4b60, 0xbebfbc70,
   0x289b7ec6, 0xeaa127fa, 0xd4ef3085, 0x04881d05,
   0xd9d4d039, 0xe6db99e5, 0x1fa27cf8, 0xc4ac5665,
   0xf4292244, 0x432aff97, 0xab9423a7, 0xfc93a039,
   0x655b59c3, 0x8f0ccc92, 0xffeff47d, 0x85845dd1,
   0x6fa87e4f, 0xfe2ce6e0, 0xa3014314, 0x4e0811a1,
   0xf7537e82, 0xbd3af235, 0x2ad7d2bb, 0xeb86d391]

/-- 32-bit left rotation (operand assumed `< 2^32`). -/
def rotl32 (x s : Nat) : Nat :=
  ((x <<< s) % 4294967296) ||| (x >>> (32 - s))

/-- 32-bit bitwise complement. -/
def not32 (x : Nat) : Nat := x ^^^ 0xffffffff

/-- Split a byte list into 64-byte blocks (fuel-structured so that the kernel
can evaluate it). -/
def toBlocksF : Nat → List Nat → List (List Nat)
  | 0, _ => []
  | _, [] => []
  | fuel + 1, bs => bs.take 64 :: toBlocksF fuel (bs.drop 64)

def toBlocks (bs : List Nat) : List (List Nat) :=
  toBlocksF bs.length bs

/-- Little-endian 32-bit word `g` of a 64-byte block. -/
def blockWord (block : List Nat) (g : Nat) : Nat :=
  block.getD (4 * g) 0 + 256 * block.getD (4 * g + 1) 0 +
    65536 * block.getD (4 * g + 2) 0 + 16777216 * block.getD (4 * g + 3) 0

/-- One MD5 round. -/
def md5Round (block : List Nat) (st : Nat × Nat × Nat × Nat) (i : Nat) :
    Nat × Nat × Nat × Nat :=
  let a := st.1
  let b := st.2.1
  let c := st.2.2.1
  let d := st.2.2.2
  let f :=
    if i < 16 then (b &&& c) ||| (not32 b &&& d)
    else if i < 32 then (d &&& b) ||| (not32 d &&& c)
    else if i < 48 then b ^^^ c ^^^ d
    else c ^^^ (b ||| not32 d)
  let g :=
    if i < 16 then i
    else if i < 32 then (5 * i + 1) % 16
    else if i < 48 then (3 * i + 5) % 16
    else (7 * i) % 16
  let tmp := (f + a + md5K.getD i 0 + blockWord block g) % 4294967296
  let nb := (b + rotl32 tmp (md5S.getD i 0)) % 4294967296
  (d, nb, b, c)

/-- Process one 64-byte block. -/
def md5Block (st : Nat × Nat × Nat × Nat) (block : List Nat) :
    Nat × Nat × Nat × Nat :=
  let r := (List.range 64).foldl (md5Round block) st
  ((st.1 + r.1) % 4294967296, (st.2.1 + r.2.1) % 4294967296,
   (st.2.2.1 + r.2.2.1) % 4294967296, (st.2.2.2 + r.2.2.2) % 4294967296)

/-- The four little-endian bytes of a 32-bit word. -/
def wordBytes (w : Nat) : List Nat :=
  [w % 256, w / 256 % 256, w / 65536 % 256, w / 16777216 % 256]

/-- MD5 digest (16 bytes) of a byte list. -/
def md5bytes (msg : List Nat) : List Nat :=
  let bitLen := msg.length * 8
  let padZeros := (55 - msg.length % 64 + 64) % 64
  let lenBytes := (List.range 8).map (fun i => bitLen / 256 ^ i % 256)
  let padded := msg ++ 128 :: (List.replicate padZeros 0 ++ lenBytes)
  let st := (toBlocks padded).foldl md5Block
    (0x67452301, 0xefcdab89, 0x98badcfe, 0x10325476)
  wordBytes st.1 ++ wordBytes st.2.1 ++ wordBytes st.2.2.1 ++ wordBytes st.2.2.2

/-- Lower-case hexadecimal digit. -/
def hexDigit (d : Nat) : Char :=
  if d < 10 then Char.ofNat (48 + d) else Char.ofNat (87 + d)

/-- Bytes of a string (the sources hashed here are ASCII, where UTF-8 bytes
coincide with code points). -/
def strBytes (s : String) : List Nat :=
  s.data.map Char.toNat

/-- `crypto.createHash('md5').update(source).digest('hex')` from
middleware.ts:15. -/
def md5hex (s : String) : String :=
  ⟨(md5bytes (strBytes s)).foldr
    (fun b acc => hexDigit (b / 16) :: hexDigit (b % 16) :: acc) []⟩

/-! ## Decimal rendering of JavaScript numbers (integers) -/

/-- Decimal digit character. -/
def digitChar (d : Nat) : Char := Char.ofNat (48 + d)

/-- Decimal rendering of a natural number (JavaScript template-literal
interpolation of a nonnegative integer). -/
def natToString (n : Nat) : String :=
  if n = 0 then "0" else ⟨((Nat.digits 10 n).map digitChar).reverse⟩

/-- Decimal rendering of an integer. -/
def intToString (i : Int) : String :=
  if i < 0 then "-" ++ natToString i.natAbs else natToString i.toNat

/-! ## Cache-key derivation (`generateCacheKey`, middleware.ts:8-17) -/

/-- `width || 'auto'` (and `height || 'auto'`): an absent or zero number
renders as `auto`. -/
def optNumStr (o : Option Int) : String :=
  match o with
  | none => "auto"
  | some n => if n = 0 then "auto" else intToString n

/-- `quality || 80`. -/
def qStr (q : Int) : String :=
  if q = 0 then "80" else intToString q

/-- `format || 'webp'`. -/
def fmtStr (f : String) : String :=
  if f = "" then "webp" else f

/-- `generateCacheKey` from middleware.ts:8-17 (identical in both variants):
the MD5 hex digest of the source followed by a readable parameter suffix. -/
def generateCacheKey (source : String) (width height : Option Int) (quality : Int)
    (format : String) : String :=
  md5hex source ++ "-" ++ optNumStr width ++ "x" ++ optNumStr height ++ "-q" ++
    qStr quality ++ "." ++ fmtStr format

/-- The auto-detect variant's source normalization (part_000:113): remote URLs
are used verbatim, local sources lose their query string. -/
def normalizeSrc (raw : String) : String :=
  if isUrl raw then raw else stripQuery raw

/-- Cache key as derived by the auto-detect variant's handler
(part_000:111-123): normalization followed by `generateCacheKey`. -/
def deriveKey (raw : String) (width height : Option Int) (quality : Int)
    (format : String) : String :=
  generateCacheKey (normalizeSrc raw) width height quality format

/-! ## Query-parameter parsing (middleware.ts:82-86, part_000:112-117) -/

/-- Decimal value of a digit list. -/
def digitsVal (l : List Char) : Nat :=
  l.foldl (fun a c => 10 * a + (c.toNat - 48)) 0

/-- Model of JavaScript `Number(s)` on the integer-literal fragment used by
the documented parameter ranges: the empty string converts to `0`, an
optionally negated digit string to its value, anything else to `NaN`
(`none`).  Decimal points, exponents, radix prefixes, and whitespace trimming
are outside the modelled fragment. -/
def jsNumber (s : String) : Option Int :=
  if s = "" then some 0
  else if s.data.all Char.isDigit then some (Int.ofNat (digitsVal s.data))
  else if strStartsWith s "-" ∧ s.data.drop 1 ≠ [] ∧ (s.data.drop 1).all Char.isDigit then
    some (-Int.ofNat (digitsVal (s.data.drop 1)))
  else none

/-- `Number(c.req.query('width')) || undefined`: `NaN` and `0` both collapse
to `undefined`. -/
def parseDim (o : Option String) : Option Int :=
  match o with
  | none => none
  | some s =>
    match jsNumber s with
    | none => none
    | some n => if n = 0 then none else some n

/-- `Number(c.req.query('quality')) || 80`. -/
def parseQuality (o : Option String) : Int :=
  match o with
  | none => 80
  | some s =>
    match jsNumber s with
    | none => 80
    | some n => if n = 0 then 80 else n

/-- `c.req.query('format') || 'webp'` (the handler's default; an empty string
is falsy). -/
def parseFormat (o : Option String) : String :=
  match o with
  | none => "webp"
  | some f => if f = "" then "webp" else f

/-! ## Response headers (middleware.ts:96-102 and 138-144) -/

/-- Setting one key in a JavaScript object literal: a later entry for an
existing key overwrites its value in place, a new key is appended. -/
def setHeader (hs : List (String × String)) (kv : String × String) :
    List (String × String) :=
  if hs.any (fun p => p.1 = kv.1) then
    hs.map (fun p => if p.1 = kv.1 then (p.1, kv.2) else p)
  else hs ++ [kv]

/-- The object literal `{ 'Content-Type': ..., 'Cache-Control': ...,
...headers }`: the computed entries first, then the configured extra headers
spread over them (so a duplicate key in `extra` overwrites the computed
value). -/
def buildResponseHeaders (format cacheControl : String)
    (extra : List (String × String)) : List (String × String) :=
  extra.foldl setHeader
    [("Content-Type", "image/" ++ format), ("Cache-Control", cacheControl)]

/-- Value of a header key in a header list (first match). -/
def getHeader (k : String) : List (String × String) → Option String
  | [] => none
  | (k', v) :: rest => if k = k' then some v else getHeader k rest

/-! ## Request handler (middleware.ts:80-148) -/

/-- The raw query parameters of a request (`c.req.query(...)`). -/
structure Req where
  src? : Option String
  width? : Option String
  height? : Option String
  quality? : Option String
  format? : Option String

/-- Middleware configuration after defaulting (middleware.ts:62-69). -/
structure Config where
  cacheControl : String
  headers : List (String × String)
  projectRoot : String
  assetsDir : String
  cacheDir : String

/-- Outcomes of the effectful collaborators for one request: the cache
existence check and read, the remote fetch (`none` models a thrown error:
non-2xx upstream or transport failure), local file existence and reads, and
the `sharp` `toFile` persist (`false` models a thrown disk-write error).
`storedBytes` are the bytes read back from the cache file after a successful
persist. -/
structure Effects where
  cacheHas : Bool
  cacheBytes : List Nat
  fetchResult : Option (List Nat)
  localHas : String → Bool
  localBytes : String → List Nat
  storeOk : Bool
  storedBytes : List Nat

/-- Observable effect events, in program order. -/
inductive Ev where
  | fetchRemote : Ev
  | readLocal : String → Ev
  | storeFile : String → Ev
  | readCacheHit : Ev
deriving DecidableEq

/-- HTTP responses produced by the handler: `c.text(msg, status)` or
`c.body(bytes, status, headers)`. -/
inductive HResp where
  | text : String → Nat → HResp
  | imageBody : List Nat → Nat → List (String × String) → HResp
deriving DecidableEq

/-- The request handler of middleware.ts:80-148 as a pure function of the
request and the effect outcomes, returning the response together with the
trace of effect events.  A thrown error anywhere is caught by the surrounding
`try`/`catch` and becomes `500 Internal Server Error`. -/
def handleRequest (cfg : Config) (eff : Effects) (req : Req) : HResp × List Ev :=
  match req.src? with
  | none => (.text "Missing src parameter" 400, [])
  | some src =>
    if src = "" then (.text "Missing src parameter" 400, [])
    else
      let width := parseDim req.width?
      let height := parseDim req.height?
      let quality := parseQuality req.quality?
      let format := parseFormat req.format?
      let cacheFilePath :=
        cfg.cacheDir ++ "/" ++ generateCacheKey src width height quality format
      if eff.cacheHas then
        (.imageBody eff.cacheBytes 200
          (buildResponseHeaders format cfg.cacheControl cfg.headers),
         [.readCacheHit])
      else if isUrl src then
        match eff.fetchResult with
        | none => (.text "Internal Server Error" 500, [.fetchRemote])
        | some _ =>
          if eff.storeOk then
            (.imageBody eff.storedBytes 200
              (buildResponseHeaders format cfg.cacheControl cfg.headers),
             [.fetchRemote, .storeFile cacheFilePath])
          else (.text "Internal Server Error" 500, [.fetchRemote])
      else
        match resolveLocalImagePath src cfg.projectRoot cfg.assetsDir with
        | none => (.text "Invalid image path (security: path traversal blocked)" 403, [])
        | some resolvedPath =>
          if eff.localHas resolvedPath then
            if eff.storeOk then
              (.imageBody eff.storedBytes 200
                (buildResponseHeaders format cfg.cacheControl cfg.headers),
               [.readLocal resolvedPath, .storeFile cacheFilePath])
            else (.text "Internal Server Error" 500, [.readLocal resolvedPath])
          else (.text "Image file not found" 404, [])

/-! ## Transform dimensions (part_000:173-202; sharp resize modelled over ℚ) -/

/-- Modelled from the spec: sharp's scaling factor for `fit: 'inside'` with
`withoutEnlargement: true` (glossary "Fit-inside resize": shrink to fit the
bounding box, preserve aspect ratio, never enlarge past native size).  An
absent bound does not constrain. -/
def fitScale (ow oh : ℚ) (w? h? : Option ℚ) : ℚ :=
  let s1 := match w? with | some w => min (w / ow) 1 | none => 1
  let s2 := match h? with | some h => min (h / oh) 1 | none => 1
  min s1 s2

/-- Modelled from the spec: output dimensions of sharp's
`resize(w, h, { fit: 'inside', withoutEnlargement: true })`, over ℚ (the
integer rounding sharp performs is not modelled). -/
def fitInside (ow oh : ℚ) (w? h? : Option ℚ) : ℚ × ℚ :=
  (ow * fitScale ow oh w? h?, oh * fitScale ow oh w? h?)

/-- The resize-argument selection of part_000:179-196: when both requested
dimensions and both intrinsic dimensions are truthy, compare aspect ratios and
drop one constraint (JavaScript float division is modelled exactly over ℚ). -/
def selectResizeArgs (ow oh : ℚ) (w? h? : Option ℚ) : Option ℚ × Option ℚ :=
  match w?, h? with
  | some w, some h =>
    if w ≠ 0 ∧ h ≠ 0 ∧ ow ≠ 0 ∧ oh ≠ 0 then
      if ow / oh < w / h then (some w, none) else (none, some h)
    else (some w, some h)
  | _, _ => (w?, h?)

/-- Output dimensions of the transform step of part_000:173-202: no resize
when neither dimension is requested, otherwise the aspect-ratio selection
followed by the fit-inside resize. -/
def transformDims (ow oh : ℚ) (w? h? : Option ℚ) : ℚ × ℚ :=
  if w?.isSome || h?.isSome then
    fitInside ow oh (selectResizeArgs ow oh w? h?).1 (selectResizeArgs ow oh w? h?).2
  else (ow, oh)


/-- Status code of a response. -/
def statusOf : HResp → Nat
  | .text _ s => s
  | .imageBody _ s _ => s

/-! ## Documented parameter ranges (spec sections 3 and 6) -/

/-- A documented width/height value: absent, or a positive integer. -/
def validDim (o : Option Int) : Prop :=
  o = none ∨ ∃ n : Int, o = some n ∧ 0 < n

/-- A documented quality value: an integer in `[1, 100]`. -/
def validQuality (q : Int) : Prop :=
  1 ≤ q ∧ q ≤ 100

/-- A documented format value. -/
def validFormat (f : String) : Prop :=
  f = "webp" ∨ f = "jpeg" ∨ f = "png" ∨ f = "avif" ∨ f = "gif"

end ImageOptimizer

namespace ImageOptimizer

/-! ## Helper lemmas: strings, query stripping, URL detection -/

theorem strExt {a b : String} (h : a.data = b.data) : a = b := by
  cases a; cases b; exact congrArg String.mk h

theorem takeBeforeQ_append (l m : List Char) :
    takeBeforeQ (l ++ '?' :: m) = takeBeforeQ l := by
  induction l with
  | nil => rfl
  | cons c cs ih =>
    by_cases hc : c = '?' <;> simp [takeBeforeQ, hc, ih]

theorem append_quest_data (s qs : String) :
    (s ++ "?" ++ qs).data = s.data ++ '?' :: qs.data := by
  have h1 : ("?" : String).data = ['?'] := rfl
  simp [String.data_append, h1]

theorem stripQuery_append (s qs : String) :
    stripQuery (s ++ "?" ++ qs) = stripQuery s := by
  unfold stripQuery
  rw [append_quest_data]
  exact congrArg String.mk (takeBeforeQ_append s.data qs.data)

theorem listStartsWith_through_quest :
    ∀ (pat s t : List Char), '?' ∉ pat →
      listStartsWith pat (s ++ '?' :: t) = true → listStartsWith pat s = true
  | [], _, _, _, _ => rfl
  | p :: ps, [], t, hq, h => by
    exfalso
    simp only [List.nil_append, listStartsWith, Bool.and_eq_true, beq_iff_eq] at h
    exact hq (by simp [h.1])
  | p :: ps, c :: cs, t, hq, h => by
    simp only [List.cons_append, listStartsWith, Bool.and_eq_true, beq_iff_eq] at h ⊢
    exact ⟨h.1, listStartsWith_through_quest ps cs t
      (fun hm => hq (List.mem_cons_of_mem _ hm)) h.2⟩

theorem listStartsWith_through_quest_false {pat : List Char} (hq : '?' ∉ pat)
    {s t : List Char} (h : listStartsWith pat s = false) :
    listStartsWith pat (s ++ '?' :: t) = false := by
  cases hb : listStartsWith pat (s ++ '?' :: t)
  · rfl
  · exact absurd (listStartsWith_through_quest pat s t hq hb) (by simp [h])

theorem isUrl_append_query (s qs : String) (h : isUrl s = false) :
    isUrl (s ++ "?" ++ qs) = false := by
  simp only [isUrl, strStartsWith, Bool.or_eq_false_iff] at h ⊢
  rw [append_quest_data]
  exact ⟨listStartsWith_through_quest_false (by decide) h.1,
    listStartsWith_through_quest_false (by decide) h.2⟩

theorem isUrl_ne_empty {s : String} (h : isUrl s = true) : s ≠ "" := by
  intro he
  rw [he] at h
  exact absurd h (by decide)

/-! ## Helper lemmas: decimal rendering is injective -/

theorem digitChar_val : ∀ d, d < 10 → Char.toNat (digitChar d) - 48 = d := by decide

theorem digitChar_range : ∀ d, d < 10 →
    48 ≤ Char.toNat (digitChar d) ∧ Char.toNat (digitChar d) ≤ 57 := by decide

theorem foldTen_eq_ofDigits :
    ∀ l : List Nat, (∀ d ∈ l, d < 10) →
      List.foldr (fun c a => 10 * a + (Char.toNat c - 48)) 0 (l.map digitChar)
        = Nat.ofDigits 10 l
  | [], _ => by simp [Nat.ofDigits]
  | d :: l, h => by
    simp only [List.map_cons, List.foldr_cons, Nat.ofDigits_cons]
    rw [foldTen_eq_ofDigits l (fun x hx => h x (List.mem_cons_of_mem _ hx))]
    rw [digitChar_val d (h d (List.mem_cons_self d l))]
    omega

theorem natToString_val (n : Nat) : digitsVal (natToString n).data = n := by
  by_cases hn : n = 0
  · subst hn; rfl
  · unfold natToString
    rw [if_neg hn]
    show digitsVal (((Nat.digits 10 n).map digitChar).reverse) = n
    unfold digitsVal
    rw [List.foldl_reverse]
    rw [foldTen_eq_ofDigits _ (fun d hd => Nat.digits_lt_base (by norm_num) hd)]
    exact Nat.ofDigits_digits 10 n

theorem natToString_inj {m n : Nat} (h : natToString m = natToString n) : m = n := by
  have hm := natToString_val m
  rw [h, natToString_val] at hm
  exact hm.symm

theorem natToString_digit_range {n : Nat} {c : Char} (hc : c ∈ (natToString n).data) :
    48 ≤ c.toNat ∧ c.toNat ≤ 57 := by
  unfold natToString at hc
  by_cases hn : n = 0
  · rw [if_pos hn] at hc
    have : c = '0' := by simpa using hc
    rw [this]; decide
  · rw [if_neg hn] at hc
    have hc' : c ∈ ((Nat.digits 10 n).map digitChar).reverse := hc
    rw [List.mem_reverse] at hc'
    obtain ⟨d, hd, rfl⟩ := List.mem_map.mp hc'
    exact digitChar_range d (Nat.digits_lt_base (by norm_num) hd)

theorem natToString_ne_auto (n : Nat) : natToString n ≠ "auto" := by
  intro h
  have ha : 'a' ∈ (natToString n).data := by rw [h]; decide
  have hr := natToString_digit_range ha
  rw [show Char.toNat 'a' = 97 from rfl] at hr
  omega

theorem intToString_inj_pos {i j : Int} (hi : 0 < i) (hj : 0 < j)
    (h : intToString i = intToString j) : i = j := by
  unfold intToString at h
  rw [if_neg (by omega), if_neg (by omega)] at h
  have := natToString_inj h
  omega

theorem intToString_pos_ne_auto {i : Int} (hi : 0 < i) : intToString i ≠ "auto" := by
  unfold intToString
  rw [if_neg (by omega)]
  exact natToString_ne_auto i.toNat

theorem optNumStr_inj {o o' : Option Int} (ho : validDim o) (ho' : validDim o')
    (h : optNumStr o = optNumStr o') : o = o' := by
  rcases ho with rfl | ⟨n, rfl, hn⟩ <;> rcases ho' with rfl | ⟨m, rfl, hm⟩
  · rfl
  · exfalso
    simp only [optNumStr] at h
    rw [if_neg (show ¬ m = 0 by omega)] at h
    exact intToString_pos_ne_auto hm h.symm
  · exfalso
    simp only [optNumStr] at h
    rw [if_neg (show ¬ n = 0 by omega)] at h
    exact intToString_pos_ne_auto hn h
  · simp only [optNumStr] at h
    rw [if_neg (show ¬ n = 0 by omega), if_neg (show ¬ m = 0 by omega)] at h
    exact congrArg some (intToString_inj_pos hn hm h)

theorem qStr_inj {q q' : Int} (hq : validQuality q) (hq' : validQuality q')
    (h : qStr q = qStr q') : q = q' := by
  obtain ⟨hq1, _⟩ := hq
  obtain ⟨hq1', _⟩ := hq'
  unfold qStr at h
  rw [if_neg (by omega), if_neg (by omega)] at h
  exact intToString_inj_pos (by omega) (by omega) h

theorem fmtStr_valid {f : String} (hf : validFormat f) : fmtStr f = f := by
  rcases hf with rfl | rfl | rfl | rfl | rfl <;> rfl

theorem fmtStr_inj {f f' : String} (hf : validFormat f) (hf' : validFormat f')
    (h : fmtStr f = fmtStr f') : f = f' := by
  rw [fmtStr_valid hf, fmtStr_valid hf'] at h
  exact h

/-! ## Helper lemmas: cache-key component cancellation -/

theorem gck_data (src : String) (w h : Option Int) (q : Int) (f : String) :
    (generateCacheKey src w h q f).data =
      (md5hex src).data ++ '-' :: ((optNumStr w).data ++ 'x' ::
        ((optNumStr h).data ++ '-' :: 'q' ::
          ((qStr q).data ++ '.' :: (fmtStr f).data))) := by
  have h1 : ("-" : String).data = ['-'] := rfl
  have h2 : ("x" : String).data = ['x'] := rfl
  have h3 : ("-q" : String).data = ['-', 'q'] := rfl
  have h4 : ("." : String).data = ['.'] := rfl
  simp [generateCacheKey, String.data_append, h1, h2, h3, h4]

theorem gck_eq_hash {u1 u2 : String} {w h : Option Int} {q : Int} {f : String}
    (heq : generateCacheKey u1 w h q f = generateCacheKey u2 w h q f) :
    md5hex u1 = md5hex u2 := by
  have hd := congrArg String.data heq
  rw [gck_data, gck_data] at hd
  exact strExt (List.append_cancel_right hd)

theorem gck_eq_w {src : String} {w w' h : Option Int} {q : Int} {f : String}
    (heq : generateCacheKey src w h q f = generateCacheKey src w' h q f) :
    optNumStr w = optNumStr w' := by
  have hd := congrArg String.data heq
  rw [gck_data, gck_data] at hd
  have h1 := (List.cons.inj (List.append_cancel_left hd)).2
  exact strExt (List.append_cancel_right h1)

theorem gck_eq_h {src : String} {w h h' : Option Int} {q : Int} {f : String}
    (heq : generateCacheKey src w h q f = generateCacheKey src w h' q f) :
    optNumStr h = optNumStr h' := by
  have hd := congrArg String.data heq
  rw [gck_data, gck_data] at hd
  have h1 := (List.cons.inj (List.append_cancel_left hd)).2
  have h2 := (List.cons.inj (List.append_cancel_left h1)).2
  exact strExt (List.append_cancel_right h2)

theorem gck_eq_q {src : String} {w h : Option Int} {q q' : Int} {f : String}
    (heq : generateCacheKey src w h q f = generateCacheKey src w h q' f) :
    qStr q = qStr q' := by
  have hd := congrArg String.data heq
  rw [gck_data, gck_data] at hd
  have h1 := (List.cons.inj (List.append_cancel_left hd)).2
  have h2 := (List.cons.inj (List.append_cancel_left h1)).2
  have h3 := (List.cons.inj (List.append_cancel_left h2)).2
  have h4 := (List.cons.inj h3).2
  exact strExt (List.append_cancel_right h4)

theorem gck_eq_f {src : String} {w h : Option Int} {q : Int} {f f' : String}
    (heq : generateCacheKey src w h q f = generateCacheKey src w h q f') :
    fmtStr f = fmtStr f' := by
  have hd := congrArg String.data heq
  rw [gck_data, gck_data] at hd
  have h1 := (List.cons.inj (List.append_cancel_left hd)).2
  have h2 := (List.cons.inj (List.append_cancel_left h1)).2
  have h3 := (List.cons.inj (List.append_cancel_left h2)).2
  have h4 := (List.cons.inj h3).2
  have h5 := (List.cons.inj (List.append_cancel_left h4)).2
  exact strExt h5

end ImageOptimizer

namespace ImageOptimizer

set_option maxRecDepth 1000000 in
/-- C1: the spec requires that every resolution escaping the sandbox (via
`..` segments, absolute-path injection, or a sibling directory whose name
merely begins with the root's name) is rejected as Invalid.  The code checks
containment with a plain string `startsWith`, so the traversal input
`assets/../assetsx/secret.png` resolves to `/r/assetsx/secret.png` — outside
the sandbox root `/r/assets` — yet is accepted, contradicting the code's own
"security: path traversal blocked" rejection message.  This theorem evaluates
the code at the failing input. -/
theorem resolveLocalImagePath_traversal_escape :
    resolveLocalImagePath "assets/../assetsx/secret.png" "/r" "/r/assets"
        = some "/r/assetsx/secret.png" ∧
      dirContains "/r/assets" "/r/assetsx/secret.png" = false := by
  decide

set_option maxRecDepth 4000000 in
/-- C2: for local (non-http/https) sources the derived cache key ignores any
trailing query-string component, while remote URLs are used verbatim, so the
same remote URL with and without a query string derives different keys. -/
theorem deriveKey_query_stripping :
    (∀ (s qs : String) (w h : Option Int) (q : Int) (f : String),
        isUrl s = false →
        deriveKey (s ++ "?" ++ qs) w h q f = deriveKey s w h q f) ∧
    ∀ (w h : Option Int) (q : Int) (f : String),
      deriveKey "https://h/a.jpg?x=1" w h q f ≠ deriveKey "https://h/a.jpg" w h q f := by
  constructor
  · intro s qs w h q f hs
    unfold deriveKey normalizeSrc
    rw [isUrl_append_query s qs hs, hs]
    simp only [Bool.false_eq_true, if_false]
    rw [stripQuery_append]
  · intro w h q f heq
    have h1 : normalizeSrc "https://h/a.jpg?x=1" = "https://h/a.jpg?x=1" := by
      unfold normalizeSrc
      rw [if_pos (by decide)]
    have h2 : normalizeSrc "https://h/a.jpg" = "https://h/a.jpg" := by
      unfold normalizeSrc
      rw [if_pos (by decide)]
    unfold deriveKey at heq
    rw [h1, h2] at heq
    have := gck_eq_hash heq
    exact absurd this (by decide)

theorem deriveKey_query_stripping_witness :
    deriveKey ("/images/a.jpg" ++ "?" ++ "x=1") none none 80 "webp"
        = deriveKey "/images/a.jpg" none none 80 "webp" ∧
      deriveKey "https://h/a.jpg?x=1" none none 80 "webp"
        ≠ deriveKey "https://h/a.jpg" none none 80 "webp" :=
  ⟨deriveKey_query_stripping.1 "/images/a.jpg" "x=1" none none 80 "webp" (by decide),
   deriveKey_query_stripping.2 none none 80 "webp"⟩

/-- C3: cache-key derivation is a pure function of (source, width, height,
quality, format) — restated as the reflexive first conjunct, which is
definitional in this embedding — and changing exactly one of width, height,
quality, or format within the documented ranges, holding the other fields
fixed, changes the derived key. -/
theorem generateCacheKey_sensitivity :
    ∀ (src : String) (wa wb ha hb : Option Int) (qa qb : Int) (fa fb : String),
      validDim wa → validDim wb → validDim ha → validDim hb →
      validQuality qa → validQuality qb → validFormat fa → validFormat fb →
      generateCacheKey src wa ha qa fa = generateCacheKey src wa ha qa fa ∧
      (wa ≠ wb → generateCacheKey src wa ha qa fa ≠ generateCacheKey src wb ha qa fa) ∧
      (ha ≠ hb → generateCacheKey src wa ha qa fa ≠ generateCacheKey src wa hb qa fa) ∧
      (qa ≠ qb → generateCacheKey src wa ha qa fa ≠ generateCacheKey src wa ha qb fa) ∧
      (fa ≠ fb → generateCacheKey src wa ha qa fa ≠ generateCacheKey src wa ha qa fb) := by
  intro src wa wb ha hb qa qb fa fb hwa hwb hha hhb hqa hqb hfa hfb
  refine ⟨rfl, ?_, ?_, ?_, ?_⟩
  · intro hne heq
    exact hne (optNumStr_inj hwa hwb (gck_eq_w heq))
  · intro hne heq
    exact hne (optNumStr_inj hha hhb (gck_eq_h heq))
  · intro hne heq
    exact hne (qStr_inj hqa hqb (gck_eq_q heq))
  · intro hne heq
    exact hne (fmtStr_inj hfa hfb (gck_eq_f heq))

theorem generateCacheKey_sensitivity_witness :
    generateCacheKey "/images/a.jpg" (some 100) (some 50) 80 "webp"
      ≠ generateCacheKey "/images/a.jpg" (some 200) (some 50) 80 "webp" :=
  (generateCacheKey_sensitivity "/images/a.jpg" (some 100) (some 200) (some 50) (some 50)
      80 80 "webp" "webp"
      (Or.inr ⟨100, rfl, by norm_num⟩) (Or.inr ⟨200, rfl, by norm_num⟩)
      (Or.inr ⟨50, rfl, by norm_num⟩) (Or.inr ⟨50, rfl, by norm_num⟩)
      ⟨by norm_num, by norm_num⟩ ⟨by norm_num, by norm_num⟩
      (Or.inl rfl) (Or.inl rfl)).2.1 (by simp)

set_option maxRecDepth 1000000 in
/-- C9: local resolution uses two distinct roots.  A raw path whose
normalized form begins with `assets/` is joined onto `projectRoot` and
checked against `projectRoot/assets` — the result is independent of the
configured `assetsDir` — while any other raw path is joined onto and checked
against the configured `assetsDir`, independently of `projectRoot`.  The
concrete clause shows an accepted `assets/`-path lying outside the configured
`assetsDir`, so `assetsDir` is not the sole sandbox root. -/
theorem resolveLocalImagePath_two_roots :
    (∀ (rel pr ad ad' : String),
        strStartsWith (normalizeRel rel) "assets/" = true →
        resolveLocalImagePath rel pr ad = resolveLocalImagePath rel pr ad') ∧
    (∀ (rel pr pr' ad : String),
        strStartsWith (normalizeRel rel) "assets/" = false →
        resolveLocalImagePath rel pr ad = resolveLocalImagePath rel pr' ad) ∧
    (resolveLocalImagePath "assets/logo.png" "/p" "/custom/a"
        = some "/p/assets/logo.png" ∧
      dirContains "/custom/a" "/p/assets/logo.png" = false ∧
      dirContains "/p/assets" "/p/assets/logo.png" = true ∧
      resolveLocalImagePath "logo.png" "/p" "/custom/a"
        = some "/custom/a/logo.png") := by
  refine ⟨?_, ?_, ?_⟩
  · intro rel pr ad ad' hstart
    simp only [resolveLocalImagePath, hstart, if_true]
  · intro rel pr pr' ad hstart
    simp only [resolveLocalImagePath, hstart, Bool.false_eq_true, if_false]
  · exact ⟨by decide, by decide, by decide, by decide⟩

set_option maxRecDepth 1000000 in
theorem resolveLocalImagePath_two_roots_witness :
    resolveLocalImagePath "assets/x.png" "/p" "/a"
      = resolveLocalImagePath "assets/x.png" "/p" "/b" :=
  resolveLocalImagePath_two_roots.1 "assets/x.png" "/p" "/a" "/b" (by decide)

end ImageOptimizer

namespace ImageOptimizer

/-! ## Helper lemmas: header merging -/

theorem getHeader_map_setValue (k k' v' : String) (hs : List (String × String))
    (hne : k' ≠ k) :
    getHeader k (hs.map (fun p => if p.1 = k' then (p.1, v') else p))
      = getHeader k hs := by
  induction hs with
  | nil => rfl
  | cons p rest ih =>
    obtain ⟨pk, pv⟩ := p
    by_cases hp : pk = k'
    · have h1 : (if (pk, pv).1 = k' then ((pk, pv).1, v') else (pk, pv)) = (pk, v') := by
        rw [if_pos hp]
      have hk : ¬ k = pk := fun he => hne (by rw [← hp, he])
      rw [List.map_cons, h1]
      show (if k = pk then some v' else _) = if k = pk then some pv else _
      rw [if_neg hk, if_neg hk]
      exact ih
    · have h1 : (if (pk, pv).1 = k' then ((pk, pv).1, v') else (pk, pv)) = (pk, pv) := by
        rw [if_neg hp]
      rw [List.map_cons, h1]
      show (if k = pk then some pv else _) = if k = pk then some pv else _
      by_cases hk : k = pk
      · rw [if_pos hk, if_pos hk]
      · rw [if_neg hk, if_neg hk]
        exact ih

theorem getHeader_append_single (k k' v' : String) (hs : List (String × String))
    (hne : k' ≠ k) :
    getHeader k (hs ++ [(k', v')]) = getHeader k hs := by
  induction hs with
  | nil =>
    show (if k = k' then some v' else none) = none
    rw [if_neg (fun he => hne he.symm)]
  | cons p rest ih =>
    obtain ⟨pk, pv⟩ := p
    show (if k = pk then some pv else _) = if k = pk then some pv else _
    by_cases hk : k = pk
    · rw [if_pos hk, if_pos hk]
    · rw [if_neg hk, if_neg hk]
      exact ih

theorem getHeader_setHeader_ne (hs : List (String × String)) (kv : String × String)
    (k : String) (hne : kv.1 ≠ k) :
    getHeader k (setHeader hs kv) = getHeader k hs := by
  unfold setHeader
  split
  · exact getHeader_map_setValue k kv.1 kv.2 hs hne
  · exact getHeader_append_single k kv.1 kv.2 hs hne

theorem getHeader_foldl_setHeader (k : String) :
    ∀ (extra hs : List (String × String)),
      (∀ kv ∈ extra, kv.1 ≠ k) →
      getHeader k (extra.foldl setHeader hs) = getHeader k hs
  | [], _, _ => rfl
  | kv :: rest, hs, hne => by
    rw [List.foldl_cons]
    rw [getHeader_foldl_setHeader k rest (setHeader hs kv)
      (fun x hx => hne x (List.mem_cons_of_mem _ hx))]
    exact getHeader_setHeader_ne hs kv k (hne kv (List.mem_cons_self kv rest))

/-- C6 counterexample: the claim says configured extra headers cannot
override the computed Content-Type.  The code spreads `...headers` after the
computed entries, so an extra `Content-Type` entry does override it: with
extra headers containing `Content-Type: text/plain` and a requested format of
`webp`, a cache-hit response carries `text/plain`, not `image/webp`. -/
theorem buildResponseHeaders_override_counterexample :
    getHeader "Content-Type"
        (buildResponseHeaders "webp" "public, max-age=31536000, immutable"
          [("Content-Type", "text/plain")]) = some "text/plain" ∧
      ("text/plain" : String) ≠ "image/webp" ∧
      (handleRequest
          ⟨"public, max-age=31536000, immutable", [("Content-Type", "text/plain")],
            "/p", "/p/assets", "/p/.cache/sharp"⟩
          ⟨true, [1, 2, 3], none, fun _ => false, fun _ => [], true, []⟩
          ⟨some "/photo.jpg", none, none, none, some "webp"⟩).1
        = .imageBody [1, 2, 3] 200
            [("Content-Type", "text/plain"),
             ("Cache-Control", "public, max-age=31536000, immutable")] := by
  refine ⟨by decide, by decide, by decide⟩

/-- C6 amended: every successful response carries the computed Content-Type
`image/<format>` and the configured cache-control header, and the configured
extra static headers are merged with precedence over the computed entries —
so an extra `Content-Type` entry does override the computed one, and the
computed Content-Type survives exactly when the extras contain no
`Content-Type` key. -/
theorem buildResponseHeaders_precedence :
    (∀ (fmt cc : String) (extra : List (String × String)),
        (∀ kv ∈ extra, kv.1 ≠ "Content-Type") →
        getHeader "Content-Type" (buildResponseHeaders fmt cc extra)
          = some ("image/" ++ fmt)) ∧
    ∀ (fmt cc v : String),
      getHeader "Content-Type" (buildResponseHeaders fmt cc [("Content-Type", v)])
        = some v := by
  constructor
  · intro fmt cc extra hne
    unfold buildResponseHeaders
    rw [getHeader_foldl_setHeader "Content-Type" extra _ hne]
    rfl
  · intro fmt cc v
    rfl

theorem buildResponseHeaders_precedence_witness :
    getHeader "Content-Type"
        (buildResponseHeaders "avif" "public" [("X-Custom", "1")])
        = some "image/avif" ∧
      getHeader "Content-Type"
        (buildResponseHeaders "avif" "public" [("Content-Type", "text/html")])
        = some "text/html" :=
  ⟨buildResponseHeaders_precedence.1 "avif" "public" [("X-Custom", "1")]
      (by
        intro kv hkv
        simp only [List.mem_singleton] at hkv
        subst hkv
        decide),
   buildResponseHeaders_precedence.2 "avif" "public" "text/html"⟩

/-- C7 counterexample: the claim says a cache-persist failure still yields a
200 response with the freshly computed bytes.  In the code the transform is
executed by `image.toFile(cacheFilePath)` and the response bytes are then read
back from that cache file, so a thrown disk-write error reaches the outer
catch: with a successful remote fetch and a failing store, the handler
answers `500 Internal Server Error`, not 200. -/
theorem handleRequest_store_failure_counterexample :
    (handleRequest
        ⟨"public, max-age=31536000, immutable", [], "/p", "/p/assets", "/p/.cache/sharp"⟩
        ⟨false, [], some [7, 7], fun _ => false, fun _ => [], false, [9, 9]⟩
        ⟨some "https://h/b.jpg", none, none, none, none⟩).1
      = .text "Internal Server Error" 500 := by
  decide

/-- C7 amended: if fetch (or local read) succeeds but persisting the encoded
bytes to the cache file fails, the request fails with `500 Internal Server
Error` — the handler reads the response bytes back from the cache file, so
persistence is required before serving and the storage failure is
client-visible, not swallowed. -/
theorem handleRequest_store_failure_is_500 :
    ∀ (cfg : Config) (eff : Effects) (req : Req) (src : String),
      req.src? = some src → src ≠ "" →
      eff.cacheHas = false → eff.storeOk = false →
      (isUrl src = true → eff.fetchResult.isSome = true) →
      (isUrl src = false →
        ∃ rp, resolveLocalImagePath src cfg.projectRoot cfg.assetsDir = some rp ∧
          eff.localHas rp = true) →
      (handleRequest cfg eff req).1 = .text "Internal Server Error" 500 := by
  intro cfg eff req src hsrc hne hcache hstore hremote hlocal
  simp only [handleRequest, hsrc]
  rw [if_neg hne]
  simp only [hcache, Bool.false_eq_true, if_false]
  cases hb : isUrl src with
  | true =>
    obtain ⟨bs, hbs⟩ := Option.isSome_iff_exists.mp (hremote hb)
    simp [hbs, hstore]
  | false =>
    obtain ⟨rp, hrp, hhas⟩ := hlocal hb
    simp [hrp, hhas, hstore]

theorem handleRequest_store_failure_is_500_witness :
    (handleRequest
        ⟨"cc", [], "/p", "/p/assets", "/cache"⟩
        ⟨false, [], some [7], fun _ => false, fun _ => [], false, [9]⟩
        ⟨some "https://h/c.jpg", none, none, none, none⟩).1
      = .text "Internal Server Error" 500 :=
  handleRequest_store_failure_is_500 _ _ _ "https://h/c.jpg" rfl (by decide) rfl rfl
    (fun _ => rfl) (fun hf => absurd hf (by decide))

/-- C8: if the remote fetch fails (non-success upstream status or transport
error, both modelled as a thrown `fetchExternalImage`), the request
terminates with `500 Internal Server Error`; the event trace is exactly one
fetch — no retry — and contains no store event, so no cache file is created
under the derived key. -/
theorem handleRequest_fetch_failure :
    ∀ (cfg : Config) (eff : Effects) (req : Req) (src : String),
      req.src? = some src → isUrl src = true →
      eff.cacheHas = false → eff.fetchResult = none →
      handleRequest cfg eff req = (.text "Internal Server Error" 500, [.fetchRemote]) := by
  intro cfg eff req src hsrc hurl hcache hfetch
  have hne : src ≠ "" := isUrl_ne_empty hurl
  simp only [handleRequest, hsrc]
  rw [if_neg hne]
  simp [hcache, hurl, hfetch]

theorem handleRequest_fetch_failure_witness :
    handleRequest ⟨"cc", [], "/p", "/p/assets", "/c"⟩
        ⟨false, [], none, fun _ => false, fun _ => [], true, []⟩
        ⟨some "https://unreachable.invalid/x.jpg", none, none, none, none⟩
      = (.text "Internal Server Error" 500, [.fetchRemote]) :=
  handleRequest_fetch_failure _ _ _ "https://unreachable.invalid/x.jpg" rfl (by decide)
    rfl rfl

end ImageOptimizer

namespace ImageOptimizer

/-! ## Helper lemmas: fit-inside scaling -/

theorem fitScale_le_one (ow oh : ℚ) (w? h? : Option ℚ) :
    fitScale ow oh w? h? ≤ 1 := by
  unfold fitScale
  cases w? <;> cases h? <;>
    simp only [min_le_iff, le_refl, true_or, or_true, min_le_right]

theorem fitInside_le (ow oh : ℚ) (w? h? : Option ℚ) (how : 0 < ow) (hoh : 0 < oh) :
    (fitInside ow oh w? h?).1 ≤ ow ∧ (fitInside ow oh w? h?).2 ≤ oh := by
  constructor
  · calc ow * fitScale ow oh w? h? ≤ ow * 1 :=
        mul_le_mul_of_nonneg_left (fitScale_le_one ow oh w? h?) (le_of_lt how)
      _ = ow := mul_one ow
  · calc oh * fitScale ow oh w? h? ≤ oh * 1 :=
        mul_le_mul_of_nonneg_left (fitScale_le_one ow oh w? h?) (le_of_lt hoh)
      _ = oh := mul_one oh

/-- C4: when both width and height are requested and the intrinsic
dimensions are known, the handler compares the intrinsic aspect ratio with
the target box's aspect ratio: when the source is comparatively taller
(`ow/oh < w/h`), the resize is constrained by width with height floating,
otherwise by height with width floating; in either case the output keeps the
source's aspect ratio exactly, so it is never stretched to match both
requested dimensions when the ratios disagree. -/
theorem transformDims_aspect_selection :
    ∀ (ow oh w h : ℚ), 0 < ow → 0 < oh → 0 < w → 0 < h →
      (ow / oh < w / h →
        selectResizeArgs ow oh (some w) (some h) = (some w, none)) ∧
      (¬ ow / oh < w / h →
        selectResizeArgs ow oh (some w) (some h) = (none, some h)) ∧
      (transformDims ow oh (some w) (some h)).1 * oh
        = (transformDims ow oh (some w) (some h)).2 * ow ∧
      (ow * h ≠ oh * w → transformDims ow oh (some w) (some h) ≠ (w, h)) := by
  intro ow oh w h how hoh hw hh
  have hcond : w ≠ 0 ∧ h ≠ 0 ∧ ow ≠ 0 ∧ oh ≠ 0 :=
    ⟨ne_of_gt hw, ne_of_gt hh, ne_of_gt how, ne_of_gt hoh⟩
  have hsel1 : ow / oh < w / h →
      selectResizeArgs ow oh (some w) (some h) = (some w, none) := by
    intro hlt
    show (if w ≠ 0 ∧ h ≠ 0 ∧ ow ≠ 0 ∧ oh ≠ 0 then
        if ow / oh < w / h then (some w, none) else (none, some h)
      else (some w, some h)) = (some w, none)
    rw [if_pos hcond, if_pos hlt]
  have hsel2 : ¬ ow / oh < w / h →
      selectResizeArgs ow oh (some w) (some h) = (none, some h) := by
    intro hge
    show (if w ≠ 0 ∧ h ≠ 0 ∧ ow ≠ 0 ∧ oh ≠ 0 then
        if ow / oh < w / h then (some w, none) else (none, some h)
      else (some w, some h)) = (none, some h)
    rw [if_pos hcond, if_neg hge]
  have hratio : (transformDims ow oh (some w) (some h)).1 * oh
      = (transformDims ow oh (some w) (some h)).2 * ow := by
    unfold transformDims
    simp only [Option.isSome_some, Bool.true_or, if_true]
    by_cases hlt : ow / oh < w / h
    · rw [hsel1 hlt]
      unfold fitInside
      ring
    · rw [hsel2 hlt]
      unfold fitInside
      ring
  refine ⟨hsel1, hsel2, hratio, ?_⟩
  intro hne heq
  rw [heq] at hratio
  exact hne (by linear_combination -hratio)

theorem transformDims_aspect_selection_witness :
    selectResizeArgs 100 200 (some 100) (some 100) = (some 100, none) ∧
      transformDims 100 200 (some 100) (some 100) ≠ (100, 100) :=
  ⟨(transformDims_aspect_selection 100 200 100 100 (by norm_num) (by norm_num)
      (by norm_num) (by norm_num)).1 (by norm_num),
   (transformDims_aspect_selection 100 200 100 100 (by norm_num) (by norm_num)
      (by norm_num) (by norm_num)).2.2.2 (by norm_num)⟩

/-- C5: the transformed output's dimensions never exceed the source's
intrinsic dimensions, both for the plain fit-inside resize call of the
explicit variant and for the aspect-selected transform of the auto-detect
variant (the `withoutEnlargement: true` option caps the scale at 1); in
particular a 100×100 source requested at width 500 stays at width 100. -/
theorem transformDims_no_upscale :
    ∀ (ow oh : ℚ) (w? h? : Option ℚ), 0 < ow → 0 < oh →
      (fitInside ow oh w? h?).1 ≤ ow ∧ (fitInside ow oh w? h?).2 ≤ oh ∧
      (transformDims ow oh w? h?).1 ≤ ow ∧ (transformDims ow oh w? h?).2 ≤ oh := by
  intro ow oh w? h? how hoh
  obtain ⟨h1, h2⟩ := fitInside_le ow oh w? h? how hoh
  refine ⟨h1, h2, ?_, ?_⟩ <;> unfold transformDims <;> split
  · exact (fitInside_le ow oh _ _ how hoh).1
  · exact le_refl ow
  · exact (fitInside_le ow oh _ _ how hoh).2
  · exact le_refl oh

theorem transformDims_no_upscale_witness :
    (fitInside 100 100 (some 500) none).1 ≤ 100 ∧
      (fitInside 100 100 (some 500) none).2 ≤ 100 ∧
      (transformDims 100 100 (some 500) none).1 ≤ 100 ∧
      (transformDims 100 100 (some 500) none).2 ≤ 100 :=
  transformDims_no_upscale 100 100 (some 500) none (by norm_num) (by norm_num)

/-- C10: malformed numeric query parameters never cause a 400: a width or
height of `0` or a non-numeric string parses to absent, a quality of `0` or a
non-numeric string (or an absent one) falls back to the default 80,
out-of-range values such as a negative width or a quality above 100 are
passed through unvalidated, and the only request state producing a 400
response is a missing (or empty, hence falsy) `src` parameter. -/
theorem parse_leniency :
    (∀ s, jsNumber s = none → parseDim (some s) = none) ∧
    parseDim (some "0") = none ∧
    parseDim (some "abc") = none ∧
    (∀ s, jsNumber s = none → parseQuality (some s) = 80) ∧
    parseQuality (some "0") = 80 ∧
    parseQuality none = 80 ∧
    parseDim (some "-5") = some (-5) ∧
    parseQuality (some "150") = 150 ∧
    (∀ (cfg : Config) (eff : Effects) (req : Req),
        statusOf (handleRequest cfg eff req).1 = 400 →
        req.src? = none ∨ req.src? = some "") ∧
    (∀ (cfg : Config) (eff : Effects) (req : Req),
        req.src? = none →
        (handleRequest cfg eff req).1 = .text "Missing src parameter" 400) := by
  refine ⟨?_, by decide, by decide, ?_, by decide, by decide, by decide, by decide, ?_, ?_⟩
  · intro s hs
    simp [parseDim, hs]
  · intro s hs
    simp [parseQuality, hs]
  · intro cfg eff req hst
    cases hsq : req.src? with
    | none => exact Or.inl rfl
    | some s =>
      by_cases hs : s = ""
      · right
        rw [← hs]
      · exfalso
        simp only [handleRequest, hsq] at hst
        rw [if_neg hs] at hst
        cases hc : eff.cacheHas <;>
          simp only [hc, Bool.false_eq_true, if_false, if_true] at hst
        · cases hu : isUrl s <;>
            simp only [hu, Bool.false_eq_true, if_false, if_true] at hst
          · cases hr : resolveLocalImagePath s cfg.projectRoot cfg.assetsDir with
            | none =>
              simp only [hr] at hst
              simp [statusOf] at hst
            | some rp =>
              simp only [hr] at hst
              cases hl : eff.localHas rp <;>
                simp only [hl, Bool.false_eq_true, if_false, if_true] at hst
              · simp [statusOf] at hst
              · cases ho : eff.storeOk <;>
                  simp only [ho, Bool.false_eq_true, if_false, if_true] at hst <;>
                  simp [statusOf] at hst
          · cases hf : eff.fetchResult with
            | none =>
              simp only [hf] at hst
              simp [statusOf] at hst
            | some bs =>
              simp only [hf] at hst
              cases ho : eff.storeOk <;>
                simp only [ho, Bool.false_eq_true, if_false, if_true] at hst <;>
                simp [statusOf] at hst
        · simp [statusOf] at hst
  · intro cfg eff req hs
    simp [handleRequest, hs]

theorem parse_leniency_witness :
    parseDim (some "xyz") = none ∧
      parseQuality (some "??") = 80 ∧
      (handleRequest ⟨"cc", [], "/p", "/a", "/c"⟩
          ⟨false, [], none, fun _ => false, fun _ => [], true, []⟩
          ⟨none, some "99", none, none, none⟩).1
        = .text "Missing src parameter" 400 :=
  ⟨parse_leniency.1 "xyz" (by decide),
   parse_leniency.2.2.2.1 "??" (by decide),
   parse_leniency.2.2.2.2.2.2.2.2.2
     ⟨"cc", [], "/p", "/a", "/c"⟩
     ⟨false, [], none, fun _ => false, fun _ => [], true, []⟩
     ⟨none, some "99", none, none, none⟩ rfl⟩

end ImageOptimizer
